import Mathlib

/-!
The `starter` supervisor (`cmd/starter/main.go`).

A shallow embedding of `process` (one run of the supervised command, with the
error-window detector), of the restart loop and the argument handling of
`main`, and of the signal-forwarding goroutine of `main`.

Everything the operating system and the Go standard library contribute to a
run (pipe creation, `cmd.Start`, the lines the scanner yields, the readings of
`time.Now`, the result of `Process.Signal`, `scanner.Err`, the results of
`strconv.Atoi` and `time.ParseDuration`) is an explicit input of the model.
-/

namespace Starter

/-! ## Errors, time -/

/-- Go `error` values seen by `process` and `main`: the package-level value
`ErrTooManyErrors`, or an error produced by the standard library (pipes,
`Start`, `Signal`, the scanner), which is never identical to
`ErrTooManyErrors`. `none : Option GoError` is `nil`. -/
inductive GoError where
  | tooManyErrors
  | ext (msg : String)
  deriving DecidableEq, Repr

/-- Largest `time.Duration` (an `int64` count of nanoseconds). -/
def maxDuration : Int := 2 ^ 63 - 1

/-- Smallest `time.Duration`. -/
def minDuration : Int := -(2 ^ 63)

/-- `t.Sub(u)` of package `time` on clock readings in nanoseconds: the
difference `t - u`, replaced by the largest (smallest) duration when it does
not fit into a `time.Duration`. -/
def timeSub (t u : Int) : Int :=
  if t - u > maxDuration then maxDuration
  else if t - u < minDuration then minDuration
  else t - u

/-! ## `strings.Contains` -/

/-- `strings.HasPrefix` on character lists. -/
def hasPrefix : List Char → List Char → Bool
  | _, [] => true
  | [], _ :: _ => false
  | c :: cs, d :: ds => c == d && hasPrefix cs ds

/-- `strings.Contains` on character lists: `sub` occurs at some position of
`s`; the empty string occurs in every string. -/
def containsChars : List Char → List Char → Bool
  | [], sub => sub.isEmpty
  | c :: cs, sub => hasPrefix (c :: cs) sub || containsChars cs sub

/-- `strings.Contains(s, substr)`. -/
def stringsContains (s substr : String) : Bool :=
  containsChars s.data substr.data

/-! ## One run: `process` -/

/-- One line handed out by `scanner.Scan()`, together with what the
environment answers while the loop body runs on it: the reading of
`time.Now()` and the result of `cmd.Process.Signal(syscall.SIGINT)` (`none`
is `nil`), each used only if the body reaches that call. -/
structure Line where
  text : String
  now : Int
  signalErr : Option String
  deriving DecidableEq, Repr

/-- Everything the environment contributes to one call of `process`. -/
structure Run where
  /-- Error of `cmd.StdoutPipe()`, `none` for `nil`. -/
  stdoutPipeErr : Option String
  /-- Error of `cmd.StderrPipe()`. -/
  stderrPipeErr : Option String
  /-- Error of `cmd.Start()`. -/
  startErr : Option String
  /-- The lines of the merged stream in the order `scanner.Scan()` yields them. -/
  lines : List Line
  /-- Result of `scanner.Err()` once `Scan` has returned false. -/
  scanErr : Option String
  /-- Lines of the merged stream from the point where `Scan` returned false
  onwards: none at end-of-stream; when the scanner stopped on a read error,
  the line it stopped on and whatever the child prints after it. -/
  unread : List String
  /-- Exit status the child reports to the operating system when it ends. -/
  exitStatus : Int
  deriving DecidableEq, Repr

/-- The variables the scanning loop of `process` reads and writes, and the
effects it has had so far. -/
structure ScanState where
  /-- The function-level variable `err`. -/
  err : Option GoError
  /-- The slice `lastOccurrences` (the Occurrence Log). -/
  lastOccurrences : List Int
  /-- Number of calls of `cmd.Process.Signal(syscall.SIGINT)` made so far. -/
  interrupts : Nat
  /-- Number of lines taken from the scanner so far. -/
  consumed : Nat
  /-- Errors of `Process.Signal` that were logged. -/
  signalLog : List String
  deriving DecidableEq, Repr

/-- State at loop entry: `err` is `nil` (both pipe calls succeeded),
`lastOccurrences := []time.Time{}`. -/
def ScanState.init : ScanState :=
  { err := none, lastOccurrences := [], interrupts := 0, consumed := 0, signalLog := [] }

/-- One iteration of `for scanner.Scan() { ... }` (main.go lines 76-95). -/
def scanStep (errSubstring : String) (countLimit timeWindow : Int)
    (st : ScanState) (ln : Line) : ScanState :=
  let st := { st with consumed := st.consumed + 1 }
  if stringsContains ln.text errSubstring && st.err != some GoError.tooManyErrors then
    let occ := st.lastOccurrences ++ [ln.now]
    let st := { st with lastOccurrences := occ }
    if (occ.length : Int) ≥ countLimit then
      let first := occ.headD ln.now
      let last := occ.getLastD ln.now
      if timeSub last first < timeWindow then
        -- err = cmd.Process.Signal(syscall.SIGINT); logged when not nil
        let st := { st with interrupts := st.interrupts + 1,
                            signalLog := match ln.signalErr with
                              | some e => st.signalLog ++ [e]
                              | none => st.signalLog }
        -- err = ErrTooManyErrors
        { st with err := some GoError.tooManyErrors }
      else st
    else st
  else st

/-- The whole scanning loop over the lines of a run. -/
def scanLoop (errSubstring : String) (countLimit timeWindow : Int)
    (st : ScanState) (lines : List Line) : ScanState :=
  lines.foldl (scanStep errSubstring countLimit timeWindow) st

/-- What one call of `process` did. -/
structure ProcResult where
  /-- The returned `error` (`none` is `nil`). -/
  ret : Option GoError
  /-- Whether `cmd.Start()` was called and succeeded (a child was spawned). -/
  spawned : Bool
  /-- State of the scanning loop when it ended. -/
  final : ScanState
  deriving DecidableEq, Repr

/-- The function `process` (main.go lines 24-101). -/
def process (run : Run) (errSubstring : String) (countLimit timeWindow : Int) : ProcResult :=
  match run.stdoutPipeErr with
  | some e => { ret := some (GoError.ext e), spawned := false, final := ScanState.init }
  | none =>
    match run.stderrPipeErr with
    | some e => { ret := some (GoError.ext e), spawned := false, final := ScanState.init }
    | none =>
      match run.startErr with
      | some e => { ret := some (GoError.ext e), spawned := false, final := ScanState.init }
      | none =>
        let st := scanLoop errSubstring countLimit timeWindow ScanState.init run.lines
        match run.scanErr with
        | some e => { ret := some (GoError.ext e), spawned := true, final := st }
        | none => { ret := st.err, spawned := true, final := st }

/-- The detector fired in the run: the loop reached the branch that sends the
interrupt and sets `err = ErrTooManyErrors`. -/
def fired (st : ScanState) : Bool := st.err == some GoError.tooManyErrors

/-! ## Vocabulary of the statements -/

/-- Arrival times (readings of `time.Now()`) of the lines of a run that
contain the substring, in arrival order: `t_1, t_2, ...`. -/
def matchTimes (errSubstring : String) (lines : List Line) : List Int :=
  (lines.filter (fun ln => stringsContains ln.text errSubstring)).map (fun ln => ln.now)

/-- The test made after an append (main.go lines 81-84) on the log `occ`. -/
def fireCond (countLimit timeWindow : Int) (occ : List Int) : Bool :=
  decide ((occ.length : Int) ≥ countLimit) &&
    decide (timeSub (occ.getLastD 0) (occ.headD 0) < timeWindow)

/-- The detector on the bare sequence of match times: starting from the log
`log`, append the times one by one and stop at the first append after which
the test succeeds; the result is the log at that moment. -/
def detect (countLimit timeWindow : Int) : List Int → List Int → Option (List Int)
  | _, [] => none
  | log, t :: ts =>
    if fireCond countLimit timeWindow (log ++ [t]) then some (log ++ [t])
    else detect countLimit timeWindow (log ++ [t]) ts

/-- Both pipes were created and `cmd.Start()` succeeded. -/
def Run.started (run : Run) : Bool :=
  run.stdoutPipeErr.isNone && run.stderrPipeErr.isNone && run.startErr.isNone

/-! ## The supervisor loop and the argument handling of `main` -/

/-- The loop `for { ... }` of `main` (main.go lines 140-156) over the runs the
environment supplies, in order. Each iteration builds a new command and calls
`process` on it; `ErrTooManyErrors` continues the loop, everything else
leaves it. The result lists what each call of `process` did and tells
whether the loop was left (`false`: the last run supplied ended as
`ErrTooManyErrors` and the loop is about to start another one). -/
def superviseLoop (errSubstr : String) (countLimit timeWindow : Int) :
    List Run → List ProcResult × Bool
  | [] => ([], false)
  | run :: rest =>
    let res := process run errSubstr countLimit timeWindow
    match res.ret with
    | some GoError.tooManyErrors =>
      let more := superviseLoop errSubstr countLimit timeWindow rest
      (res :: more.1, more.2)
    | _ => ([res], true)

/-- How `main` ended. -/
inductive MainOutcome where
  /-- Fewer than 4 arguments: usage message, return. -/
  | usage
  /-- `strconv.Atoi(args[1])` failed: message, return. -/
  | countLimitError (msg : String)
  /-- `time.ParseDuration(args[2])` failed: message, return. -/
  | timeWindowError (msg : String)
  /-- The supervisor loop was entered with these parameters. -/
  | supervised (countLimit timeWindow : Int) (runs : List ProcResult) (stopped : Bool)
  deriving DecidableEq, Repr

/-- The function `main` (main.go lines 103-158) without the signal goroutine.
`args` is `flag.Args()`; `atoiResult` is what `strconv.Atoi` returns on
`args[1]` and `durationResult` what `time.ParseDuration` returns on `args[2]`
(in nanoseconds); both belong to the Go standard library and are consulted
only when control reaches the call. -/
def main (args : List String) (atoiResult durationResult : Except String Int)
    (runs : List Run) : MainOutcome :=
  if args.length < 4 then MainOutcome.usage
  else
    match atoiResult with
    | Except.error e => MainOutcome.countLimitError e
    | Except.ok countLimit =>
      match durationResult with
      | Except.error e => MainOutcome.timeWindowError e
      | Except.ok timeWindow =>
        let out := superviseLoop (args.getD 0 "") countLimit timeWindow runs
        MainOutcome.supervised countLimit timeWindow out.1 out.2

/-- Number of child processes `main` spawned. -/
def MainOutcome.children : MainOutcome → Nat
  | MainOutcome.supervised _ _ runs _ => (runs.filter (fun r => r.spawned)).length
  | _ => 0

/-- Number of calls of `process` made by `main`. -/
def MainOutcome.processCalls : MainOutcome → Nat
  | MainOutcome.supervised _ _ runs _ => runs.length
  | _ => 0

/-! ## The signal goroutine of `main` -/

/-- The signals registered with `signal.Notify`. -/
inductive Signal where
  | sigint
  | sigterm
  deriving DecidableEq, Repr

/-- The variable `cmd` of `main` as the goroutine finds it. -/
inductive CmdVar where
  /-- Still the zero value: the loop has not executed `cmd = exec.Command(...)` yet. -/
  | unset
  /-- A command was built, `cmd.Process` is `nil` (not started). -/
  | built
  /-- `cmd.Start()` succeeded, `cmd.Process` is the child `pid`; it stays so
  until the next `cmd = exec.Command(...)`. -/
  | started (pid : Nat)
  deriving DecidableEq, Repr

/-- What happens in the supervisor, as far as the signal goroutine is
concerned. -/
inductive Event where
  /-- The main loop executes `cmd = exec.Command(...)`. -/
  | command
  /-- `cmd.Start()` succeeds inside `process` with child `pid`. -/
  | start (pid : Nat)
  /-- A registered signal is delivered to the supervisor. -/
  | signal (sig : Signal)
  deriving DecidableEq, Repr

/-- State of the supervisor as far as signals are concerned. -/
structure SigState where
  cmd : CmdVar
  /-- The goroutine is still blocked in `sig := <-sigs`. -/
  listening : Bool
  /-- Signals sitting in the channel `sigs` (capacity 1), never received. -/
  buffered : List Signal
  /-- Calls `cmd.Process.Signal(sig)` made so far: child and signal. -/
  forwarded : List (Nat × Signal)
  /-- The goroutine dereferenced the nil `cmd`. -/
  crashed : Bool
  deriving DecidableEq, Repr

/-- State when the goroutine has been started (main.go line 138). -/
def SigState.init : SigState :=
  { cmd := CmdVar.unset, listening := true, buffered := [], forwarded := [], crashed := false }

/-- The goroutine (main.go lines 130-138) receives `sig`: one receive, the
body, then the goroutine ends. -/
def receive (st : SigState) (sig : Signal) : SigState :=
  let st := { st with listening := false }
  match st.cmd with
  | CmdVar.unset => { st with crashed := true }
  | CmdVar.built => st
  | CmdVar.started pid => { st with forwarded := st.forwarded ++ [(pid, sig)] }

/-- One event. A delivered signal is handed to the goroutine if it is
blocked in the receive; otherwise it goes into the channel buffer if there is
room and is dropped if not (`signal.Notify` never blocks). After a crash
nothing happens any more. -/
def sigStep (st : SigState) (ev : Event) : SigState :=
  if st.crashed then st
  else
    match ev with
    | Event.command => { st with cmd := CmdVar.built }
    | Event.start pid => { st with cmd := CmdVar.started pid }
    | Event.signal sig =>
      if st.listening then receive st sig
      else if st.buffered.length < 1 then { st with buffered := st.buffered ++ [sig] }
      else st

/-- The supervisor's signal handling over a sequence of events. -/
def sigRun (st : SigState) (events : List Event) : SigState :=
  events.foldl sigStep st

/-- The event is a signal delivery. -/
def Event.isSignal : Event → Bool
  | Event.signal _ => true
  | _ => false

/-! ## Sample inputs -/

/-- A line with text `text` read at time `now` (nanoseconds); sending the
interrupt would succeed. -/
def mkLine (text : String) (now : Int) : Line :=
  { text := text, now := now, signalErr := none }

/-- A run whose pipes and start succeed, with the given lines, ending without
read error, the child exiting with status 0. -/
def mkRun (lines : List Line) : Run :=
  { stdoutPipeErr := none, stderrPipeErr := none, startErr := none, lines := lines,
    scanErr := none, unread := [], exitStatus := 0 }

/-- One second in nanoseconds. -/
def second : Int := 1000000000

/-- The lines `PANIC` printed at the given seconds. -/
def panicsAt (secs : List Int) : List Line :=
  secs.map (fun t => mkLine "PANIC" (t * second))

/-- Threshold 3, window 5 s: matches at 0 s, 10 s, 11 s, 12 s. -/
def lateBurst : Run := mkRun (panicsAt [0, 10, 11, 12])

/-- Matches at 0 s, 1 s, 2 s and a fourth at 3 s. -/
def earlyBurst : Run := mkRun (panicsAt [0, 1, 2, 3])

/-- Matches at 0 s, 10 s, 20 s. -/
def sparse : Run := mkRun (panicsAt [0, 10, 20])

/-- A line of 70000 bytes, more than the scanner's maximum token size of
65536. -/
def longLine : String := String.mk (List.replicate 70000 'x')

/-- Matches at 0 s, 1 s, 2 s, after which the scanner stops on a line that
exceeds its maximum token size. -/
def tokenTooLong : Run :=
  { mkRun (panicsAt [0, 1, 2]) with
    scanErr := some "bufio.Scanner: token too long", unread := [longLine] }

/-- Matches at 0 s, 1 s, 2 s; sending the interrupt fails; more lines follow
and the child ends with status 137. -/
def signalFails : Run :=
  { mkRun [mkLine "PANIC" 0, mkLine "PANIC" second,
      { text := "PANIC", now := 2 * second, signalErr := some "os: process already finished" },
      mkLine "shutting down" (3 * second), mkLine "PANIC" (4 * second)] with
    exitStatus := 137 }

/-- Matches at 0 s, 1 s, 2 s, then a line of 70000 bytes on which the scanner
stops, then two more lines printed by the child while it shuts down. -/
def longLineAfterFiring : Run :=
  { mkRun (panicsAt [0, 1, 2]) with
    scanErr := some "bufio.Scanner: token too long",
    unread := [longLine, "PANIC", "shutdown complete"] }

/-- A run without any matching line whose child ends with status `code`. -/
def exitsWith (code : Int) : Run :=
  { mkRun [mkLine "listening on :8545" 0] with exitStatus := code }

/-- Four runs offered to the supervisor: two that fire, one that ends
quietly, and one more that is never reached. -/
def fourRuns : List Run := [earlyBurst, earlyBurst, sparse, lateBurst]

/-! ## Basic facts about the scanning loop -/

theorem timeSub_mono_left (t t' u : Int) (h : t ≤ t') : timeSub t u ≤ timeSub t' u := by
  unfold timeSub maxDuration minDuration
  split_ifs <;> omega

theorem timeSub_anti_right (t u u' : Int) (h : u ≤ u') : timeSub t u' ≤ timeSub t u := by
  unfold timeSub maxDuration minDuration
  split_ifs <;> omega

theorem matchTimes_append (s : String) (a b : List Line) :
    matchTimes s (a ++ b) = matchTimes s a ++ matchTimes s b := by
  simp [matchTimes]

theorem scanLoop_append (s : String) (c w : Int) (st : ScanState) (a b : List Line) :
    scanLoop s c w st (a ++ b) = scanLoop s c w (scanLoop s c w st a) b := by
  simp [scanLoop]

theorem scanStep_fired (s : String) (c w : Int) (st : ScanState) (ln : Line)
    (h : st.err = some GoError.tooManyErrors) :
    scanStep s c w st ln = { st with consumed := st.consumed + 1 } := by
  simp [scanStep, h]

theorem scanLoop_fired (s : String) (c w : Int) (lines : List Line) :
    ∀ st : ScanState, st.err = some GoError.tooManyErrors →
      scanLoop s c w st lines = { st with consumed := st.consumed + lines.length } := by
  induction lines with
  | nil => intro st _; simp [scanLoop]
  | cons ln rest ih =>
    intro st h
    have hs := scanStep_fired s c w st ln h
    have := ih (scanStep s c w st ln) (by rw [hs]; exact h)
    simp only [scanLoop, List.foldl_cons] at this ⊢
    rw [this, hs]
    simp only [List.length_cons, ScanState.mk.injEq, true_and, and_true]
    omega

theorem getLastD_snoc (l : List Int) (x d : Int) : (l ++ [x]).getLastD d = x := by
  cases l <;> simp [List.getLastD]

theorem headD_snoc (l : List Int) (x d : Int) : (l ++ [x]).headD d = l.headD x := by
  cases l <;> simp

theorem scanStep_nomatch (s : String) (c w : Int) (st : ScanState) (ln : Line)
    (h : stringsContains ln.text s = false) :
    scanStep s c w st ln = { st with consumed := st.consumed + 1 } := by
  simp [scanStep, h]

theorem scanStep_match (s : String) (c w : Int) (st : ScanState) (ln : Line)
    (h : stringsContains ln.text s = true) (he : st.err = none) :
    scanStep s c w st ln =
      if fireCond c w (st.lastOccurrences ++ [ln.now]) then
        { err := some GoError.tooManyErrors,
          lastOccurrences := st.lastOccurrences ++ [ln.now],
          interrupts := st.interrupts + 1,
          consumed := st.consumed + 1,
          signalLog := match ln.signalErr with
            | some e => st.signalLog ++ [e]
            | none => st.signalLog }
      else { st with lastOccurrences := st.lastOccurrences ++ [ln.now],
                     consumed := st.consumed + 1 } := by
  simp only [scanStep, h, he, fireCond, getLastD_snoc, headD_snoc]
  split_ifs <;> simp_all <;> omega

theorem matchTimes_cons_match (s : String) (ln : Line) (rest : List Line)
    (h : stringsContains ln.text s = true) :
    matchTimes s (ln :: rest) = ln.now :: matchTimes s rest := by
  simp [matchTimes, h]

theorem matchTimes_cons_nomatch (s : String) (ln : Line) (rest : List Line)
    (h : stringsContains ln.text s = false) :
    matchTimes s (ln :: rest) = matchTimes s rest := by
  simp [matchTimes, h]

/-- The loop of `process` refines `detect`, firing case: the log stops at the
firing append, exactly one more interrupt has been sent. -/
theorem scanLoop_detect_some (s : String) (c w : Int) (lines : List Line) :
    ∀ (st : ScanState) (occ : List Int), st.err = none →
      detect c w st.lastOccurrences (matchTimes s lines) = some occ →
      (scanLoop s c w st lines).err = some GoError.tooManyErrors ∧
      (scanLoop s c w st lines).lastOccurrences = occ ∧
      (scanLoop s c w st lines).interrupts = st.interrupts + 1 := by
  induction lines with
  | nil => intro st occ _ h; simp [matchTimes, detect] at h
  | cons ln rest ih =>
    intro st occ he hd
    cases hm : stringsContains ln.text s with
    | false =>
      rw [matchTimes_cons_nomatch s ln rest hm] at hd
      have hs := scanStep_nomatch s c w st ln hm
      have := ih (scanStep s c w st ln) occ (by rw [hs]; exact he) (by rw [hs]; exact hd)
      simp only [scanLoop, List.foldl_cons] at this ⊢
      rw [hs] at this ⊢
      exact this
    | true =>
      rw [matchTimes_cons_match s ln rest hm] at hd
      have hs := scanStep_match s c w st ln hm he
      simp only [detect] at hd
      by_cases hf : fireCond c w (st.lastOccurrences ++ [ln.now]) = true
      · simp only [hf, if_true] at hs hd
        have hfin := scanLoop_fired s c w rest (scanStep s c w st ln) (by rw [hs])
        simp only [scanLoop, List.foldl_cons] at hfin ⊢
        rw [hfin, hs]
        simp only [Option.some.injEq] at hd
        simp [hd]
      · simp only [hf, if_false] at hs hd
        have := ih (scanStep s c w st ln) occ (by rw [hs]; exact he) (by rw [hs]; exact hd)
        simp only [scanLoop, List.foldl_cons] at this ⊢
        rw [hs] at this ⊢
        exact this

/-- The loop of `process` refines `detect`, silent case: every match time has
been appended, nothing was sent, `err` is still `nil`. -/
theorem scanLoop_detect_none (s : String) (c w : Int) (lines : List Line) :
    ∀ (st : ScanState), st.err = none →
      detect c w st.lastOccurrences (matchTimes s lines) = none →
      (scanLoop s c w st lines).err = none ∧
      (scanLoop s c w st lines).lastOccurrences = st.lastOccurrences ++ matchTimes s lines ∧
      (scanLoop s c w st lines).interrupts = st.interrupts := by
  induction lines with
  | nil => intro st he _; simp [matchTimes, scanLoop, he]
  | cons ln rest ih =>
    intro st he hd
    cases hm : stringsContains ln.text s with
    | false =>
      rw [matchTimes_cons_nomatch s ln rest hm] at hd ⊢
      have hs := scanStep_nomatch s c w st ln hm
      have := ih (scanStep s c w st ln) (by rw [hs]; exact he) (by rw [hs]; exact hd)
      simp only [scanLoop, List.foldl_cons] at this ⊢
      rw [hs] at this ⊢
      exact this
    | true =>
      rw [matchTimes_cons_match s ln rest hm] at hd ⊢
      have hs := scanStep_match s c w st ln hm he
      simp only [detect] at hd
      by_cases hf : fireCond c w (st.lastOccurrences ++ [ln.now]) = true
      · simp [hf] at hd
      · simp only [hf, if_false] at hs hd
        have := ih (scanStep s c w st ln) (by rw [hs]; exact he) (by rw [hs]; exact hd)
        simp only [scanLoop, List.foldl_cons] at this ⊢
        rw [hs] at this ⊢
        simpa using this

/-- When `detect` fires, it does so at the first append that passes the test. -/
theorem detect_some (c w : Int) (mt : List Int) :
    ∀ (log occ : List Int), detect c w log mt = some occ →
      ∃ k, k < mt.length ∧ occ = log ++ mt.take (k + 1) ∧ fireCond c w occ = true ∧
        ∀ j, j < k → fireCond c w (log ++ mt.take (j + 1)) = false := by
  induction mt with
  | nil => intro log occ h; simp [detect] at h
  | cons t ts ih =>
    intro log occ h
    simp only [detect] at h
    by_cases hf : fireCond c w (log ++ [t]) = true
    · simp only [hf, if_true, Option.some.injEq] at h
      refine ⟨0, by simp, by simp [← h], by rw [← h]; exact hf, ?_⟩
      intro j hj; omega
    · simp only [hf, if_false] at h
      obtain ⟨k, hk, hocc, hfc, hearlier⟩ := ih (log ++ [t]) occ h
      refine ⟨k + 1, by simpa using hk, by simpa using hocc, hfc, ?_⟩
      intro j hj
      cases j with
      | zero => simpa using hf
      | succ j =>
        have := hearlier j (by omega)
        simpa using this

/-- When `detect` stays silent, no append passed the test. -/
theorem detect_none (c w : Int) (mt : List Int) :
    ∀ (log : List Int), detect c w log mt = none →
      ∀ j, j < mt.length → fireCond c w (log ++ mt.take (j + 1)) = false := by
  induction mt with
  | nil => intro log _ j hj; simp at hj
  | cons t ts ih =>
    intro log h j hj
    simp only [detect] at h
    by_cases hf : fireCond c w (log ++ [t]) = true
    · simp [hf] at h
    · simp only [hf, if_false] at h
      cases j with
      | zero => simpa using hf
      | succ j =>
        have := ih (log ++ [t]) h j (by simpa using hj)
        simpa using this

theorem fireCond_take (c w : Int) (mt : List Int) (k : Nat) (hk : k < mt.length) :
    fireCond c w (mt.take (k + 1)) =
      (decide ((k : Int) + 1 ≥ c) && decide (timeSub (mt.getD k 0) (mt.getD 0 0) < w)) := by
  have h0 : 0 < mt.length := by omega
  have hlen : (mt.take (k + 1)).length = k + 1 := by
    rw [List.length_take]; omega
  have hlast : (mt.take (k + 1)).getLastD 0 = mt.getD k 0 := by
    simp [List.getLast?_take, List.getElem?_eq_getElem hk]
  have hhead : (mt.take (k + 1)).headD 0 = mt.getD 0 0 := by
    cases mt with
    | nil => simp at h0
    | cons a l => simp
  simp only [fireCond, hlen, hlast, hhead]
  push_cast
  rfl

theorem getD_mono (mt : List Int) (hs : mt.Pairwise (fun a b => a ≤ b)) (i j : Nat)
    (hij : i ≤ j) (hj : j < mt.length) : mt.getD i 0 ≤ mt.getD j 0 := by
  have hi : i < mt.length := by omega
  rw [List.getD_eq_getElem mt 0 hi, List.getD_eq_getElem mt 0 hj]
  rcases Nat.lt_or_eq_of_le hij with h | h
  · exact (List.pairwise_iff_getElem.mp hs) i j hi hj h
  · subst h; exact le_refl _

/-- With non-decreasing match times and a limit of at least 1, `detect` can
fire only on the `countLimit`-th match, and only if that match is closer than
the window to the first one. -/
theorem detect_sorted_some (c w : Int) (mt occ : List Int) (hc : 1 ≤ c)
    (hs : mt.Pairwise (fun a b => a ≤ b)) (h : detect c w [] mt = some occ) :
    c.toNat ≤ mt.length ∧ timeSub (mt.getD (c.toNat - 1) 0) (mt.getD 0 0) < w ∧
      occ = mt.take c.toNat := by
  obtain ⟨k, hk, hocc, hfc, hearlier⟩ := detect_some c w mt [] occ h
  simp only [List.nil_append] at hocc hearlier
  rw [hocc, fireCond_take c w mt k hk] at hfc
  simp only [Bool.and_eq_true, decide_eq_true_eq] at hfc
  obtain ⟨hlen, htime⟩ := hfc
  have hn : c.toNat ≤ k + 1 := by omega
  have hn1 : 1 ≤ c.toNat := by omega
  have hmono := getD_mono mt hs (c.toNat - 1) k (by omega) hk
  have htime' : timeSub (mt.getD (c.toNat - 1) 0) (mt.getD 0 0) < w :=
    lt_of_le_of_lt (timeSub_mono_left _ _ _ hmono) htime
  have hkeq : k + 1 = c.toNat := by
    by_contra hne
    have hlt : c.toNat - 1 < k := by omega
    have := hearlier (c.toNat - 1) hlt
    rw [fireCond_take c w mt (c.toNat - 1) (by omega)] at this
    have hge : ((c.toNat - 1 : Nat) : Int) + 1 ≥ c := by omega
    simp only [hge, decide_True, Bool.true_and, decide_eq_false_iff_not] at this
    exact this htime'
  refine ⟨by omega, htime', ?_⟩
  rw [hocc, hkeq]

/-- If `detect` stays silent, the `countLimit`-th match (if there is one) is
not closer than the window to the first one. -/
theorem detect_none_first (c w : Int) (mt : List Int) (hc : 1 ≤ c)
    (h : detect c w [] mt = none) :
    ¬ (c.toNat ≤ mt.length ∧ timeSub (mt.getD (c.toNat - 1) 0) (mt.getD 0 0) < w) := by
  rintro ⟨hlen, htime⟩
  have := detect_none c w mt [] h (c.toNat - 1) (by omega)
  simp only [List.nil_append] at this
  rw [fireCond_take c w mt (c.toNat - 1) (by omega)] at this
  have hge : ((c.toNat - 1 : Nat) : Int) + 1 ≥ c := by omega
  simp only [hge, decide_True, Bool.true_and, decide_eq_false_iff_not] at this
  exact this htime

theorem fired_iff (st : ScanState) : fired st = true ↔ st.err = some GoError.tooManyErrors := by
  simp [fired]

theorem process_final (run : Run) (s : String) (c w : Int) (h : run.started = true) :
    (process run s c w).final = scanLoop s c w ScanState.init run.lines := by
  simp only [Run.started, Bool.and_eq_true, Option.isNone_iff_eq_none] at h
  obtain ⟨⟨h1, h2⟩, h3⟩ := h
  simp only [process, h1, h2, h3]
  cases run.scanErr <;> rfl

theorem process_ret (run : Run) (s : String) (c w : Int) (h : run.started = true) :
    (process run s c w).ret =
      match run.scanErr with
      | some e => some (GoError.ext e)
      | none => (scanLoop s c w ScanState.init run.lines).err := by
  simp only [Run.started, Bool.and_eq_true, Option.isNone_iff_eq_none] at h
  obtain ⟨⟨h1, h2⟩, h3⟩ := h
  simp only [process, h1, h2, h3]
  cases run.scanErr <;> rfl


theorem process_not_started (run : Run) (s : String) (c w : Int) (h : run.started = false) :
    (process run s c w).final = ScanState.init ∧ (process run s c w).spawned = false ∧
      ∃ e, (process run s c w).ret = some (GoError.ext e) := by
  unfold process
  cases h1 : run.stdoutPipeErr with
  | some e => exact ⟨rfl, rfl, e, rfl⟩
  | none =>
    cases h2 : run.stderrPipeErr with
    | some e => exact ⟨rfl, rfl, e, rfl⟩
    | none =>
      cases h3 : run.startErr with
      | some e => exact ⟨rfl, rfl, e, rfl⟩
      | none => simp [Run.started, h1, h2, h3] at h

theorem scanStep_consumed (s : String) (c w : Int) (st : ScanState) (ln : Line) :
    (scanStep s c w st ln).consumed = st.consumed + 1 := by
  unfold scanStep
  simp only
  split_ifs <;> rfl

theorem scanLoop_consumed (s : String) (c w : Int) (lines : List Line) :
    ∀ st : ScanState, (scanLoop s c w st lines).consumed = st.consumed + lines.length := by
  induction lines with
  | nil => intro st; simp [scanLoop]
  | cons ln rest ih =>
    intro st
    have := ih (scanStep s c w st ln)
    simp only [scanLoop, List.foldl_cons] at this ⊢
    rw [this, scanStep_consumed]
    simp only [List.length_cons]
    omega

/-- From the initial state the loop sends at most one interrupt, and one
exactly when it ends fired. -/
theorem scanLoop_interrupts (s : String) (c w : Int) (lines : List Line) :
    (scanLoop s c w ScanState.init lines).interrupts =
      if fired (scanLoop s c w ScanState.init lines) then 1 else 0 := by
  cases hd : detect c w [] (matchTimes s lines) with
  | none =>
    obtain ⟨he, _, hi⟩ := scanLoop_detect_none s c w lines ScanState.init rfl hd
    have hi0 : (scanLoop s c w ScanState.init lines).interrupts = 0 := hi
    simp [fired, he, hi0]
  | some occ =>
    obtain ⟨he, _, hi⟩ := scanLoop_detect_some s c w lines ScanState.init occ rfl hd
    have hi1 : (scanLoop s c w ScanState.init lines).interrupts = 1 := hi
    simp [fired, he, hi1]

/-- With fewer matches than the limit the loop stays silent. -/
theorem scanLoop_below_limit (s : String) (c w : Int) (lines : List Line)
    (h : ((matchTimes s lines).length : Int) < c) :
    fired (scanLoop s c w ScanState.init lines) = false ∧
      (scanLoop s c w ScanState.init lines).interrupts = 0 := by
  cases hd : detect c w [] (matchTimes s lines) with
  | none =>
    obtain ⟨he, _, hi⟩ := scanLoop_detect_none s c w lines ScanState.init rfl hd
    have hi0 : (scanLoop s c w ScanState.init lines).interrupts = 0 := hi
    simp [fired, he, hi0]
  | some occ =>
    exfalso
    obtain ⟨k, hk, hocc, hfc, _⟩ := detect_some c w _ [] occ hd
    simp only [List.nil_append] at hocc
    rw [hocc, fireCond_take c w _ k hk] at hfc
    simp only [Bool.and_eq_true, decide_eq_true_eq] at hfc
    omega

/-- Exact firing condition of the loop for non-decreasing match times. -/
theorem scanLoop_fired_iff (s : String) (c w : Int) (lines : List Line) (hc : 1 ≤ c)
    (hs : (matchTimes s lines).Pairwise (fun a b => a ≤ b)) :
    fired (scanLoop s c w ScanState.init lines) = true ↔
      (c.toNat ≤ (matchTimes s lines).length ∧
        timeSub ((matchTimes s lines).getD (c.toNat - 1) 0) ((matchTimes s lines).getD 0 0) < w) := by
  cases hd : detect c w [] (matchTimes s lines) with
  | none =>
    obtain ⟨he, _, _⟩ := scanLoop_detect_none s c w lines ScanState.init rfl hd
    have := detect_none_first c w _ hc hd
    simp only [fired, he]
    constructor
    · intro h; simp at h
    · intro h; exact absurd h this
  | some occ =>
    obtain ⟨he, _, _⟩ := scanLoop_detect_some s c w lines ScanState.init occ rfl hd
    obtain ⟨h1, h2, _⟩ := detect_sorted_some c w _ occ hc hs hd
    simp only [fired, he]
    constructor
    · intro _; exact ⟨h1, h2⟩
    · intro _; simp

/-- The first matches fitting the window make the loop fire, sorted or not. -/
theorem scanLoop_fires_of_first (s : String) (c w : Int) (lines : List Line) (hc : 1 ≤ c)
    (h : c.toNat ≤ (matchTimes s lines).length ∧
        timeSub ((matchTimes s lines).getD (c.toNat - 1) 0) ((matchTimes s lines).getD 0 0) < w) :
    fired (scanLoop s c w ScanState.init lines) = true := by
  cases hd : detect c w [] (matchTimes s lines) with
  | none => exact absurd h (detect_none_first c w _ hc hd)
  | some occ =>
    obtain ⟨he, _, _⟩ := scanLoop_detect_some s c w lines ScanState.init occ rfl hd
    simp [fired, he]

theorem getD_of_getElem? (mt : List Int) (i : Nat) (t : Int) (h : mt[i]? = some t) :
    i < mt.length ∧ mt.getD i 0 = t := by
  have hi : i < mt.length := by
    by_contra hn
    rw [List.getElem?_eq_none (by omega)] at h
    exact Option.noConfusion h
  refine ⟨hi, ?_⟩
  simp [h]

theorem getElem?_of_lt (mt : List Int) (i : Nat) (h : i < mt.length) :
    mt[i]? = some (mt.getD i 0) := by
  simp [List.getElem?_eq_getElem h]

/-- The index form and the `getD` form of "the first `n` matches fit the window". -/
theorem first_window_iff (mt : List Int) (n : Nat) (w : Int) (hn : 1 ≤ n) :
    (∃ t1 tn, mt[0]? = some t1 ∧ mt[n - 1]? = some tn ∧ timeSub tn t1 < w) ↔
      (n ≤ mt.length ∧ timeSub (mt.getD (n - 1) 0) (mt.getD 0 0) < w) := by
  constructor
  · rintro ⟨t1, tn, h1, h2, h3⟩
    obtain ⟨_, e1⟩ := getD_of_getElem? mt 0 t1 h1
    obtain ⟨l2, e2⟩ := getD_of_getElem? mt (n - 1) tn h2
    refine ⟨by omega, ?_⟩
    rw [e1, e2]; exact h3
  · rintro ⟨hl, ht⟩
    exact ⟨mt.getD 0 0, mt.getD (n - 1) 0, getElem?_of_lt mt 0 (by omega),
      getElem?_of_lt mt (n - 1) (by omega), ht⟩

/-! ## The error-window detector -/

/-- C10: for a limit of at least 1, any window and a run whose matching lines
arrive at non-decreasing times `t_1 ≤ t_2 ≤ ...`, the detector in `process`
fires if and only if the run has at least `countLimit` matching lines and
`t_countLimit - t_1 < window`; the detector has fired after a prefix of the
run exactly when the run fires and the prefix already holds the
`countLimit`-th matching line; one interrupt is sent if it fires and none
otherwise. So a run whose first `countLimit` matches miss the window never
fires later. -/
theorem process_fires_iff_first_window (run : Run) (errSubstring : String)
    (countLimit timeWindow : Int) (hrun : run.started = true) (hc : 1 ≤ countLimit)
    (hs : (matchTimes errSubstring run.lines).Pairwise (fun a b => a ≤ b)) :
    (fired (process run errSubstring countLimit timeWindow).final = true ↔
      ∃ t1 tn, (matchTimes errSubstring run.lines)[0]? = some t1 ∧
        (matchTimes errSubstring run.lines)[countLimit.toNat - 1]? = some tn ∧
        timeSub tn t1 < timeWindow) ∧
    (∀ pre post, run.lines = pre ++ post →
      (fired (scanLoop errSubstring countLimit timeWindow ScanState.init pre) = true ↔
        countLimit.toNat ≤ (matchTimes errSubstring pre).length ∧
          fired (process run errSubstring countLimit timeWindow).final = true)) ∧
    (process run errSubstring countLimit timeWindow).final.interrupts =
      (if fired (process run errSubstring countLimit timeWindow).final then 1 else 0) := by
  have hn : 1 ≤ countLimit.toNat := by omega
  rw [process_final run errSubstring countLimit timeWindow hrun]
  have hall := scanLoop_fired_iff errSubstring countLimit timeWindow run.lines hc hs
  refine ⟨?_, ?_, scanLoop_interrupts errSubstring countLimit timeWindow run.lines⟩
  · rw [hall, first_window_iff _ _ _ hn]
  · intro pre post hsplit
    have hmt : matchTimes errSubstring run.lines =
        matchTimes errSubstring pre ++ matchTimes errSubstring post := by
      rw [hsplit, matchTimes_append]
    have hspre : (matchTimes errSubstring pre).Pairwise (fun a b => a ≤ b) := by
      rw [hmt] at hs
      exact (List.pairwise_append.mp hs).1
    rw [scanLoop_fired_iff errSubstring countLimit timeWindow pre hc hspre, hall]
    have hget : ∀ i, i < (matchTimes errSubstring pre).length →
        (matchTimes errSubstring run.lines).getD i 0 = (matchTimes errSubstring pre).getD i 0 := by
      intro i hi
      rw [hmt]
      simp only [List.getD_eq_getElem?_getD]
      rw [List.getElem?_append_left hi]
    have hlen : (matchTimes errSubstring pre).length ≤ (matchTimes errSubstring run.lines).length := by
      rw [hmt, List.length_append]; omega
    constructor
    · rintro ⟨h1, h2⟩
      refine ⟨h1, by omega, ?_⟩
      rw [hget _ (by omega), hget _ (by omega)]
      exact h2
    · rintro ⟨h1, _, h2⟩
      refine ⟨h1, ?_⟩
      rw [hget _ (by omega), hget _ (by omega)] at h2
      exact h2

/-- C4: the detector in `process` does not fire before the threshold-th
matching line has been read: after any prefix of the run with fewer than
`countLimit` matching lines it has not fired and no interrupt was sent; a run
with fewer than `countLimit` matching lines never fires, and without a read
error `process` returns nil. -/
theorem process_silent_below_threshold (run : Run) (errSubstring : String)
    (countLimit timeWindow : Int) :
    (∀ pre post, run.lines = pre ++ post →
      ((matchTimes errSubstring pre).length : Int) < countLimit →
      fired (scanLoop errSubstring countLimit timeWindow ScanState.init pre) = false ∧
        (scanLoop errSubstring countLimit timeWindow ScanState.init pre).interrupts = 0) ∧
    (((matchTimes errSubstring run.lines).length : Int) < countLimit →
      fired (process run errSubstring countLimit timeWindow).final = false ∧
        (process run errSubstring countLimit timeWindow).final.interrupts = 0 ∧
        (process run errSubstring countLimit timeWindow).ret ≠ some GoError.tooManyErrors ∧
        (run.started = true → run.scanErr = none →
          (process run errSubstring countLimit timeWindow).ret = none)) := by
  refine ⟨fun pre _ _ h => scanLoop_below_limit errSubstring countLimit timeWindow pre h, ?_⟩
  intro h
  obtain ⟨hf, hi⟩ := scanLoop_below_limit errSubstring countLimit timeWindow run.lines h
  cases hrun : run.started with
  | false =>
    obtain ⟨hfin, _, e, hret⟩ := process_not_started run errSubstring countLimit timeWindow hrun
    rw [hfin, hret]
    exact ⟨rfl, rfl, by simp, fun hh => Bool.noConfusion hh⟩
  | true =>
    rw [process_final run errSubstring countLimit timeWindow hrun,
      process_ret run errSubstring countLimit timeWindow hrun]
    have herr : (scanLoop errSubstring countLimit timeWindow ScanState.init run.lines).err = none := by
      cases hd : detect countLimit timeWindow [] (matchTimes errSubstring run.lines) with
      | none => exact (scanLoop_detect_none errSubstring countLimit timeWindow run.lines
          ScanState.init rfl hd).1
      | some occ =>
        have := (scanLoop_detect_some errSubstring countLimit timeWindow run.lines
          ScanState.init occ rfl hd).1
        simp [fired, this] at hf
    refine ⟨hf, hi, ?_, ?_⟩
    · cases run.scanErr <;> simp [herr]
    · intro _ hscan
      simp [hscan, herr]

/-- Once the detector has fired, the remaining lines yielded by the scanner
change nothing but the count of lines consumed, and at most one interrupt is
sent in a run. -/
theorem scanLoop_after_fired (s : String) (c w : Int) (pre post : List Line)
    (hf : fired (scanLoop s c w ScanState.init pre) = true) :
    scanLoop s c w ScanState.init (pre ++ post) =
      { scanLoop s c w ScanState.init pre with
        consumed := (scanLoop s c w ScanState.init pre).consumed + post.length } ∧
    (scanLoop s c w ScanState.init (pre ++ post)).interrupts = 1 := by
  have h : scanLoop s c w ScanState.init (pre ++ post) =
      { scanLoop s c w ScanState.init pre with
        consumed := (scanLoop s c w ScanState.init pre).consumed + post.length } := by
    rw [scanLoop_append]
    exact scanLoop_fired s c w post _ ((fired_iff _).mp hf)
  refine ⟨h, ?_⟩
  rw [h]
  show (scanLoop s c w ScanState.init pre).interrupts = 1
  rw [scanLoop_interrupts, hf]
  rfl

/-- C5, the code at the failing input: threshold 3, window 5 s, the child
prints `PANIC` at 0 s, 1 s, 2 s (the detector fires, one interrupt is sent),
then a line of 70000 bytes, then two more lines. `Scan` returns false on the
long line and `process` returns the read error at once: three lines have been
consumed and three lines of the stream are left unread. -/
theorem read_error_after_firing_leaves_stream_unread :
    longLine.length = 70000 ∧
    longLineAfterFiring.started = true ∧
    fired (process longLineAfterFiring "PANIC" 3 (5 * second)).final = true ∧
    (process longLineAfterFiring "PANIC" 3 (5 * second)).final.interrupts = 1 ∧
    (process longLineAfterFiring "PANIC" 3 (5 * second)).final.consumed = 3 ∧
    longLineAfterFiring.unread.length = 3 ∧
    (process longLineAfterFiring "PANIC" 3 (5 * second)).final.consumed <
      longLineAfterFiring.lines.length + longLineAfterFiring.unread.length ∧
    (process longLineAfterFiring "PANIC" 3 (5 * second)).ret =
      some (GoError.ext "bufio.Scanner: token too long") := by
  refine ⟨?_, by decide, by decide, by decide, by decide, by decide, by decide, by decide⟩
  show (List.replicate 70000 'x').length = 70000
  exact List.length_replicate 70000 'x'

/-- Witness for C10 on threshold 3, window 5 s, matches at 0 s, 10 s, 11 s,
12 s: the third match is 11 s after the first, so the run never fires. -/
theorem process_fires_iff_first_window_witness :
    lateBurst.started = true ∧ (1 : Int) ≤ 3 ∧
    (matchTimes "PANIC" lateBurst.lines).Pairwise (fun a b => a ≤ b) ∧
    fired (process lateBurst "PANIC" 3 (5 * second)).final = false ∧
    (process lateBurst "PANIC" 3 (5 * second)).final.interrupts = 0 := by
  have h := process_fires_iff_first_window lateBurst "PANIC" 3 (5 * second)
    (by decide) (by decide) (by decide)
  have hmt : matchTimes "PANIC" lateBurst.lines =
      [0, 10 * second, 11 * second, 12 * second] := by decide
  have hnot : fired (process lateBurst "PANIC" 3 (5 * second)).final = false := by
    apply Bool.eq_false_iff.mpr
    intro hf
    obtain ⟨t1, tn, h1, h2, h3⟩ := h.1.mp hf
    rw [hmt] at h1 h2
    simp only [List.getElem?_cons_zero, Option.some.injEq] at h1
    have h2' : tn = 11 * second := by
      simpa using h2.symm
    subst h1 h2'
    revert h3
    decide
  refine ⟨by decide, by decide, by decide, hnot, ?_⟩
  rw [h.2.2, hnot]
  rfl

/-- Witness for C4 on threshold 3 and a run with two matching lines. -/
theorem process_silent_below_threshold_witness :
    (mkRun (panicsAt [0, 1])).started = true ∧
    fired (process (mkRun (panicsAt [0, 1])) "PANIC" 3 (5 * second)).final = false ∧
    (process (mkRun (panicsAt [0, 1])) "PANIC" 3 (5 * second)).final.interrupts = 0 ∧
    (process (mkRun (panicsAt [0, 1])) "PANIC" 3 (5 * second)).ret = none := by
  have h := (process_silent_below_threshold (mkRun (panicsAt [0, 1])) "PANIC" 3
    (5 * second)).2 (by decide)
  exact ⟨by decide, h.1, h.2.1, h.2.2.2 (by decide) rfl⟩

/-- C1 fails as stated: threshold 3, window 5 s, matches at 0 s, 10 s, 11 s
and 12 s. The last three matches lie within 2 s, yet `process` sends no
interrupt and returns nil: the span is always measured from the first match
of the run. -/
theorem late_burst_not_detected :
    lateBurst.started = true ∧
    matchTimes "PANIC" lateBurst.lines = [0, 10 * second, 11 * second, 12 * second] ∧
    timeSub (12 * second) (10 * second) < 5 * second ∧
    fired (process lateBurst "PANIC" 3 (5 * second)).final = false ∧
    (process lateBurst "PANIC" 3 (5 * second)).final.interrupts = 0 ∧
    (process lateBurst "PANIC" 3 (5 * second)).ret = none := by
  decide

/-- C1 as amended: for a threshold of at least 1, if the threshold-th matching
line of the run arrives less than `window` after the first matching line of
the run, the detector fires exactly once (one interrupt is sent) and, when
the scanner ends without a read error, `process` returns `ErrTooManyErrors`. -/
theorem process_fires_on_first_window (run : Run) (errSubstring : String)
    (countLimit timeWindow : Int) (hrun : run.started = true) (hc : 1 ≤ countLimit)
    (h : ∃ t1 tn, (matchTimes errSubstring run.lines)[0]? = some t1 ∧
        (matchTimes errSubstring run.lines)[countLimit.toNat - 1]? = some tn ∧
        timeSub tn t1 < timeWindow) :
    fired (process run errSubstring countLimit timeWindow).final = true ∧
    (process run errSubstring countLimit timeWindow).final.interrupts = 1 ∧
    (run.scanErr = none →
      (process run errSubstring countLimit timeWindow).ret = some GoError.tooManyErrors) := by
  have hn : 1 ≤ countLimit.toNat := by omega
  have hf := scanLoop_fires_of_first errSubstring countLimit timeWindow run.lines hc
    ((first_window_iff _ _ _ hn).mp h)
  rw [process_final run errSubstring countLimit timeWindow hrun,
    process_ret run errSubstring countLimit timeWindow hrun]
  refine ⟨hf, ?_, ?_⟩
  · rw [scanLoop_interrupts, hf]; rfl
  · intro hscan
    simp only [hscan]
    exact (fired_iff _).mp hf

/-- Witness for the amended C1: threshold 3, window 5 s, matches at 0 s, 1 s,
2 s, 3 s. -/
theorem process_fires_on_first_window_witness :
    earlyBurst.started = true ∧ (1 : Int) ≤ 3 ∧
    (∃ t1 tn, (matchTimes "PANIC" earlyBurst.lines)[0]? = some t1 ∧
        (matchTimes "PANIC" earlyBurst.lines)[(3 : Int).toNat - 1]? = some tn ∧
        timeSub tn t1 < 5 * second) ∧
    fired (process earlyBurst "PANIC" 3 (5 * second)).final = true ∧
    (process earlyBurst "PANIC" 3 (5 * second)).final.interrupts = 1 ∧
    (process earlyBurst "PANIC" 3 (5 * second)).ret = some GoError.tooManyErrors := by
  have hex : ∃ t1 tn, (matchTimes "PANIC" earlyBurst.lines)[0]? = some t1 ∧
      (matchTimes "PANIC" earlyBurst.lines)[(3 : Int).toNat - 1]? = some tn ∧
      timeSub tn t1 < 5 * second := ⟨0, 2 * second, by decide, by decide, by decide⟩
  have h := process_fires_on_first_window earlyBurst "PANIC" 3 (5 * second)
    (by decide) (by decide) hex
  exact ⟨by decide, by decide, hex, h.1, h.2.1, h.2.2 rfl⟩

/-- The log of a fired run is the first `countLimit` match times. -/
theorem scanLoop_log_of_fired (s : String) (c w : Int) (lines : List Line) (hc : 1 ≤ c)
    (hs : (matchTimes s lines).Pairwise (fun a b => a ≤ b))
    (hf : fired (scanLoop s c w ScanState.init lines) = true) :
    (scanLoop s c w ScanState.init lines).lastOccurrences = (matchTimes s lines).take c.toNat := by
  cases hd : detect c w [] (matchTimes s lines) with
  | none =>
    have he := (scanLoop_detect_none s c w lines ScanState.init rfl hd).1
    simp [fired, he] at hf
  | some occ =>
    obtain ⟨_, hl, _⟩ := scanLoop_detect_some s c w lines ScanState.init occ rfl hd
    rw [hl, (detect_sorted_some c w _ occ hc hs hd).2.2]

/-- C2: for a threshold of at least 1 and a run with non-decreasing match
times, if no `countLimit` consecutive matching lines lie within a span
shorter than the window then the detector never fires, no interrupt is sent
and `process` does not return `ErrTooManyErrors`; and whenever the detector
fires, the log holds at least `countLimit` entries and its most recent
`countLimit` entries lie within a span shorter than the window. -/
theorem process_fires_only_in_window (run : Run) (errSubstring : String)
    (countLimit timeWindow : Int) (hc : 1 ≤ countLimit)
    (hs : (matchTimes errSubstring run.lines).Pairwise (fun a b => a ≤ b)) :
    ((∀ i, i + countLimit.toNat ≤ (matchTimes errSubstring run.lines).length →
        ¬ timeSub ((matchTimes errSubstring run.lines).getD (i + countLimit.toNat - 1) 0)
            ((matchTimes errSubstring run.lines).getD i 0) < timeWindow) →
      fired (process run errSubstring countLimit timeWindow).final = false ∧
      (process run errSubstring countLimit timeWindow).final.interrupts = 0 ∧
      (process run errSubstring countLimit timeWindow).ret ≠ some GoError.tooManyErrors) ∧
    (fired (process run errSubstring countLimit timeWindow).final = true →
      countLimit.toNat ≤
        (process run errSubstring countLimit timeWindow).final.lastOccurrences.length ∧
      timeSub ((process run errSubstring countLimit timeWindow).final.lastOccurrences.getLastD 0)
        ((process run errSubstring countLimit timeWindow).final.lastOccurrences.getD
          ((process run errSubstring countLimit timeWindow).final.lastOccurrences.length
            - countLimit.toNat) 0) < timeWindow) := by
  have hn : 1 ≤ countLimit.toNat := by omega
  cases hrun : run.started with
  | false =>
    obtain ⟨hfin, _, e, hret⟩ := process_not_started run errSubstring countLimit timeWindow hrun
    rw [hfin, hret]
    refine ⟨fun _ => ⟨rfl, rfl, by simp⟩, ?_⟩
    intro hf
    simp [fired, ScanState.init] at hf
  | true =>
    rw [process_final run errSubstring countLimit timeWindow hrun,
      process_ret run errSubstring countLimit timeWindow hrun]
    have hiff := scanLoop_fired_iff errSubstring countLimit timeWindow run.lines hc hs
    constructor
    · intro hno
      have hnf : fired (scanLoop errSubstring countLimit timeWindow ScanState.init run.lines)
          = false := by
        apply Bool.eq_false_iff.mpr
        intro hf
        obtain ⟨hlen, ht⟩ := hiff.mp hf
        have := hno 0 (by omega)
        simp only [Nat.zero_add] at this
        exact this ht
      refine ⟨hnf, ?_, ?_⟩
      · rw [scanLoop_interrupts, hnf]; rfl
      · have hne : (scanLoop errSubstring countLimit timeWindow ScanState.init run.lines).err
            ≠ some GoError.tooManyErrors := by
          intro he
          rw [(fired_iff _).mpr he] at hnf
          exact Bool.noConfusion hnf
        cases run.scanErr with
        | none => exact hne
        | some e => simp
    · intro hf
      obtain ⟨hlen, ht⟩ := hiff.mp hf
      rw [scanLoop_log_of_fired errSubstring countLimit timeWindow run.lines hc hs hf]
      have hl : ((matchTimes errSubstring run.lines).take countLimit.toNat).length
          = countLimit.toNat := by
        rw [List.length_take]; omega
      refine ⟨by omega, ?_⟩
      rw [hl, Nat.sub_self]
      have h1 : ((matchTimes errSubstring run.lines).take countLimit.toNat).getLastD 0 =
          (matchTimes errSubstring run.lines).getD (countLimit.toNat - 1) 0 := by
        have hk : countLimit.toNat - 1 < (matchTimes errSubstring run.lines).length := by omega
        have hne : countLimit.toNat ≠ 0 := by omega
        simp [List.getLast?_take, List.getElem?_eq_getElem hk, hne]
      have h0 : ((matchTimes errSubstring run.lines).take countLimit.toNat).getD 0 0 =
          (matchTimes errSubstring run.lines).getD 0 0 := by
        simp only [List.getD_eq_getElem?_getD]
        rw [List.getElem?_take_of_lt (by omega)]
      rw [h1, h0]
      exact ht

/-- Witness for C2: threshold 3, window 5 s, matches at 0 s, 10 s, 20 s. -/
theorem process_fires_only_in_window_witness :
    (1 : Int) ≤ 3 ∧ (matchTimes "PANIC" sparse.lines).Pairwise (fun a b => a ≤ b) ∧
    fired (process sparse "PANIC" 3 (5 * second)).final = false ∧
    (process sparse "PANIC" 3 (5 * second)).final.interrupts = 0 ∧
    (process sparse "PANIC" 3 (5 * second)).ret ≠ some GoError.tooManyErrors := by
  have h := (process_fires_only_in_window sparse "PANIC" 3 (5 * second)
    (by decide) (by decide)).1 (by
      intro i hi
      have hlen : (matchTimes "PANIC" sparse.lines).length = 3 := by decide
      have h3 : (3 : Int).toNat = 3 := by decide
      have hi0 : i = 0 := by omega
      subst hi0
      decide)
  exact ⟨by decide, by decide, h⟩

/-- C3 fails as stated: matches at 0 s, 1 s, 2 s with threshold 3 and window
5 s make the detector fire, then the scanner ends with a read error;
`process` returns that read error, not `ErrTooManyErrors`. -/
theorem fired_run_returns_read_error :
    fired (process tokenTooLong "PANIC" 3 (5 * second)).final = true ∧
    (process tokenTooLong "PANIC" 3 (5 * second)).final.interrupts = 1 ∧
    (process tokenTooLong "PANIC" 3 (5 * second)).ret =
      some (GoError.ext "bufio.Scanner: token too long") ∧
    (process tokenTooLong "PANIC" 3 (5 * second)).ret ≠ some GoError.tooManyErrors := by
  decide

/-- C3 as amended: once the detector has fired while the lines `pre` were
read (the interrupt was sent, whether `Process.Signal` returned nil or an
error), then whatever lines `post` follow and however the child exits,
`process` returns `ErrTooManyErrors` when the scanner ends without a read
error and returns the read error when it ends with one; no second interrupt
is sent and the log stays as it was at the firing. -/
theorem process_ret_after_firing (run : Run) (errSubstring : String)
    (countLimit timeWindow : Int) (pre post : List Line)
    (hrun : run.started = true) (hsplit : run.lines = pre ++ post)
    (hsent : 0 < (scanLoop errSubstring countLimit timeWindow ScanState.init pre).interrupts) :
    (process run errSubstring countLimit timeWindow).ret =
      (match run.scanErr with
        | none => some GoError.tooManyErrors
        | some e => some (GoError.ext e)) ∧
    (process run errSubstring countLimit timeWindow).final.interrupts = 1 ∧
    (process run errSubstring countLimit timeWindow).final.lastOccurrences =
      (scanLoop errSubstring countLimit timeWindow ScanState.init pre).lastOccurrences := by
  have hf : fired (scanLoop errSubstring countLimit timeWindow ScanState.init pre) = true := by
    rw [scanLoop_interrupts] at hsent
    by_contra hn
    rw [Bool.not_eq_true] at hn
    rw [hn] at hsent
    exact absurd hsent (by decide)
  obtain ⟨hall, hint⟩ := scanLoop_after_fired errSubstring countLimit timeWindow pre post hf
  rw [process_final run errSubstring countLimit timeWindow hrun,
    process_ret run errSubstring countLimit timeWindow hrun, hsplit]
  refine ⟨?_, hint, ?_⟩
  · cases run.scanErr with
    | none =>
      show (scanLoop errSubstring countLimit timeWindow ScanState.init (pre ++ post)).err = _
      rw [hall]
      exact (fired_iff _).mp hf
    | some e => rfl
  · rw [hall]

/-- Witness for the amended C3: the detector fires on the third match and
the interrupt cannot be delivered; two more lines follow, one of them
matching, and the child ends with status 137. -/
theorem process_ret_after_firing_witness :
    signalFails.started = true ∧
    signalFails.lines =
      [mkLine "PANIC" 0, mkLine "PANIC" second,
        { text := "PANIC", now := 2 * second,
          signalErr := some "os: process already finished" }] ++
      [mkLine "shutting down" (3 * second), mkLine "PANIC" (4 * second)] ∧
    0 < (scanLoop "PANIC" 3 (5 * second) ScanState.init
      [mkLine "PANIC" 0, mkLine "PANIC" second,
        { text := "PANIC", now := 2 * second,
          signalErr := some "os: process already finished" }]).interrupts ∧
    (process signalFails "PANIC" 3 (5 * second)).final.signalLog =
      ["os: process already finished"] ∧
    (process signalFails "PANIC" 3 (5 * second)).ret = some GoError.tooManyErrors ∧
    (process signalFails "PANIC" 3 (5 * second)).final.interrupts = 1 :=
  ⟨by decide, rfl, by decide, by decide,
   (process_ret_after_firing signalFails "PANIC" 3 (5 * second)
      [mkLine "PANIC" 0, mkLine "PANIC" second,
        { text := "PANIC", now := 2 * second,
          signalErr := some "os: process already finished" }]
      [mkLine "shutting down" (3 * second), mkLine "PANIC" (4 * second)]
      (by decide) rfl (by decide)).1,
   (process_ret_after_firing signalFails "PANIC" 3 (5 * second)
      [mkLine "PANIC" 0, mkLine "PANIC" second,
        { text := "PANIC", now := 2 * second,
          signalErr := some "os: process already finished" }]
      [mkLine "shutting down" (3 * second), mkLine "PANIC" (4 * second)]
      (by decide) rfl (by decide)).2.1⟩

/-! ## The supervisor loop -/

theorem superviseLoop_cons_restart (s : String) (c w : Int) (run : Run) (rest : List Run)
    (h : (process run s c w).ret = some GoError.tooManyErrors) :
    superviseLoop s c w (run :: rest) =
      (process run s c w :: (superviseLoop s c w rest).1, (superviseLoop s c w rest).2) := by
  simp only [superviseLoop, h]

theorem superviseLoop_cons_stop (s : String) (c w : Int) (run : Run) (rest : List Run)
    (h : (process run s c w).ret ≠ some GoError.tooManyErrors) :
    superviseLoop s c w (run :: rest) = ([process run s c w], true) := by
  simp only [superviseLoop]

theorem superviseLoop_length_pos (s : String) (c w : Int) (run : Run) (rest : List Run) :
    0 < (superviseLoop s c w (run :: rest)).1.length := by
  by_cases h : (process run s c w).ret = some GoError.tooManyErrors
  · rw [superviseLoop_cons_restart s c w run rest h]; simp
  · rw [superviseLoop_cons_stop s c w run rest h]; simp

/-- C6: the loop of `main` starts a further run after a run if and only if
that run ended as `ErrTooManyErrors`. The calls of `process` are made on the
runs in order, each on its own (`process` starts from an empty log and a new
command); as long as another run is to come, run `i + 1` is started exactly
when run `i` returned `ErrTooManyErrors`; a run returning nil or any other
error is the last one and the loop is left; and the loop is left only after
such a run. -/
theorem superviseLoop_restarts_iff_too_many_errors (errSubstr : String)
    (countLimit timeWindow : Int) (runs : List Run) :
    (superviseLoop errSubstr countLimit timeWindow runs).1 =
      (runs.take (superviseLoop errSubstr countLimit timeWindow runs).1.length).map
        (fun run => process run errSubstr countLimit timeWindow) ∧
    (∀ i r, (superviseLoop errSubstr countLimit timeWindow runs).1[i]? = some r →
      i + 1 < runs.length →
      (i + 1 < (superviseLoop errSubstr countLimit timeWindow runs).1.length ↔
        r.ret = some GoError.tooManyErrors)) ∧
    (∀ i r, (superviseLoop errSubstr countLimit timeWindow runs).1[i]? = some r →
      r.ret ≠ some GoError.tooManyErrors →
      (superviseLoop errSubstr countLimit timeWindow runs).1.length = i + 1 ∧
        (superviseLoop errSubstr countLimit timeWindow runs).2 = true) ∧
    ((superviseLoop errSubstr countLimit timeWindow runs).2 = true →
      ∃ r, (superviseLoop errSubstr countLimit timeWindow runs).1.getLast? = some r ∧
        r.ret ≠ some GoError.tooManyErrors) := by
  induction runs with
  | nil => simp [superviseLoop]
  | cons run rest ih =>
    obtain ⟨ih1, ih2, ih3, ih4⟩ := ih
    by_cases h : (process run errSubstr countLimit timeWindow).ret = some GoError.tooManyErrors
    · rw [superviseLoop_cons_restart errSubstr countLimit timeWindow run rest h]
      refine ⟨?_, ?_, ?_, ?_⟩
      · simp only [List.length_cons, List.take_succ_cons, List.map_cons]
        rw [← ih1]
      · intro i r hr hi
        cases i with
        | zero =>
          simp only [List.getElem?_cons_zero, Option.some.injEq] at hr
          subst hr
          simp only [h, iff_true, List.length_cons]
          cases rest with
          | nil => simp at hi
          | cons r2 rest2 =>
            have := superviseLoop_length_pos errSubstr countLimit timeWindow r2 rest2
            omega
        | succ j =>
          simp only [List.getElem?_cons_succ] at hr
          simp only [List.length_cons] at hi ⊢
          have := ih2 j r hr (by omega)
          constructor
          · intro hlt; exact this.mp (by omega)
          · intro hret; have := this.mpr hret; omega
      · intro i r hr hne
        cases i with
        | zero =>
          simp only [List.getElem?_cons_zero, Option.some.injEq] at hr
          subst hr
          exact absurd h hne
        | succ j =>
          simp only [List.getElem?_cons_succ] at hr
          obtain ⟨hl, hstop⟩ := ih3 j r hr hne
          exact ⟨by simp only [List.length_cons]; omega, hstop⟩
      · intro hstop
        obtain ⟨r, hr, hne⟩ := ih4 hstop
        refine ⟨r, ?_, hne⟩
        cases hm : (superviseLoop errSubstr countLimit timeWindow rest).1 with
        | nil => rw [hm] at hr; simp at hr
        | cons a l =>
          rw [hm] at hr
          simpa [List.getLast?_cons_cons] using hr
    · rw [superviseLoop_cons_stop errSubstr countLimit timeWindow run rest h]
      refine ⟨by simp, ?_, ?_, ?_⟩
      · intro i r hr hi
        cases i with
        | zero =>
          simp only [List.getElem?_cons_zero, Option.some.injEq] at hr
          subst hr
          simp [h]
        | succ j => simp at hr
      · intro i r hr _
        cases i with
        | zero => simp
        | succ j => simp at hr
      · intro _
        exact ⟨process run errSubstr countLimit timeWindow, by simp, h⟩

/-- Witness for C6: two runs that fire are each followed by a fresh run; the
third run ends quietly, so it is the last one, the loop is left and the
fourth run on offer is never started. -/
theorem superviseLoop_restarts_iff_too_many_errors_witness :
    (superviseLoop "PANIC" 3 (5 * second) fourRuns).1[2]? =
      some (process sparse "PANIC" 3 (5 * second)) ∧
    (process sparse "PANIC" 3 (5 * second)).ret ≠ some GoError.tooManyErrors ∧
    (superviseLoop "PANIC" 3 (5 * second) fourRuns).1.length = 2 + 1 ∧
    (superviseLoop "PANIC" 3 (5 * second) fourRuns).2 = true :=
  ⟨by decide, by decide,
   (superviseLoop_restarts_iff_too_many_errors "PANIC" 3 (5 * second) fourRuns).2.2.1
     2 (process sparse "PANIC" 3 (5 * second)) (by decide) (by decide)⟩

/-! ## Argument handling of `main` -/

/-- C7 fails as stated: with `countLimit` given as "0" (`strconv.Atoi` yields
0) `main` enters the loop and spawns a child, calling `process` with
threshold 0; with `timeWindow` given as "-5s" (`time.ParseDuration` yields
-5 s) it does the same with a negative window. -/
theorem main_accepts_zero_limit_and_negative_window :
    main ["PANIC", "0", "5s", "sh"] (Except.ok 0) (Except.ok (5 * second))
        [mkRun (panicsAt [0])] =
      MainOutcome.supervised 0 (5 * second)
        [process (mkRun (panicsAt [0])) "PANIC" 0 (5 * second)] false ∧
    (main ["PANIC", "0", "5s", "sh"] (Except.ok 0) (Except.ok (5 * second))
        [mkRun (panicsAt [0])]).children = 1 ∧
    main ["PANIC", "3", "-5s", "sh"] (Except.ok 3) (Except.ok (-5 * second))
        [mkRun (panicsAt [0])] =
      MainOutcome.supervised 3 (-5 * second)
        [process (mkRun (panicsAt [0])) "PANIC" 3 (-5 * second)] true ∧
    (main ["PANIC", "3", "-5s", "sh"] (Except.ok 3) (Except.ok (-5 * second))
        [mkRun (panicsAt [0])]).children = 1 := by
  decide

/-- C7 as amended: with at least 4 arguments `main` returns before any call
of `process` (no child is spawned) exactly when `strconv.Atoi` fails on the
`countLimit` argument or `time.ParseDuration` fails on the `timeWindow`
argument; whenever both parse, `main` enters the loop and hands the parsed
values to `process` unchecked, whatever their sign. -/
theorem main_rejects_only_parse_failures (args : List String)
    (atoiResult durationResult : Except String Int) (runs : List Run)
    (hargs : 4 ≤ args.length) :
    (∀ e, atoiResult = Except.error e →
      main args atoiResult durationResult runs = MainOutcome.countLimitError e) ∧
    (∀ n e, atoiResult = Except.ok n → durationResult = Except.error e →
      main args atoiResult durationResult runs = MainOutcome.timeWindowError e) ∧
    (∀ n d, atoiResult = Except.ok n → durationResult = Except.ok d →
      main args atoiResult durationResult runs =
        MainOutcome.supervised n d (superviseLoop (args.getD 0 "") n d runs).1
          (superviseLoop (args.getD 0 "") n d runs).2) ∧
    (((∃ e, atoiResult = Except.error e) ∨ (∃ e, durationResult = Except.error e)) →
      (main args atoiResult durationResult runs).processCalls = 0 ∧
        (main args atoiResult durationResult runs).children = 0) := by
  have hlt : ¬ args.length < 4 := by omega
  refine ⟨?_, ?_, ?_, ?_⟩
  · intro e he; simp [main, hlt, he]
  · intro n e hn he; simp [main, hlt, hn, he]
  · intro n d hn hd; simp [main, hlt, hn, hd]
  · intro h
    cases atoiResult with
    | error e => simp [main, hlt, MainOutcome.processCalls, MainOutcome.children]
    | ok n =>
      cases durationResult with
      | error e => simp [main, hlt, MainOutcome.processCalls, MainOutcome.children]
      | ok d =>
        rcases h with ⟨e, he⟩ | ⟨e, he⟩ <;> exact Except.noConfusion he

/-- Witness for the amended C7: "abc" is no integer, so nothing is run; "-5"
is one, so the loop is entered with threshold -5. -/
theorem main_rejects_only_parse_failures_witness :
    4 ≤ ["PANIC", "abc", "5s", "sh"].length ∧
    main ["PANIC", "abc", "5s", "sh"]
        (Except.error "strconv.Atoi: parsing \"abc\": invalid syntax")
        (Except.ok (5 * second)) [mkRun (panicsAt [0])] =
      MainOutcome.countLimitError "strconv.Atoi: parsing \"abc\": invalid syntax" ∧
    main ["PANIC", "-5", "5s", "sh"] (Except.ok (-5)) (Except.ok (5 * second))
        [mkRun (panicsAt [0])] =
      MainOutcome.supervised (-5) (5 * second)
        (superviseLoop "PANIC" (-5) (5 * second) [mkRun (panicsAt [0])]).1
        (superviseLoop "PANIC" (-5) (5 * second) [mkRun (panicsAt [0])]).2 :=
  ⟨by decide,
   (main_rejects_only_parse_failures ["PANIC", "abc", "5s", "sh"]
      (Except.error "strconv.Atoi: parsing \"abc\": invalid syntax")
      (Except.ok (5 * second)) [mkRun (panicsAt [0])] (by decide)).1 _ rfl,
   (main_rejects_only_parse_failures ["PANIC", "-5", "5s", "sh"] (Except.ok (-5))
      (Except.ok (5 * second)) [mkRun (panicsAt [0])] (by decide)).2.2.1 _ _ rfl rfl⟩

/-! ## Exit status of the child -/

/-- C9 fails as stated: two runs that differ only in the exit status of the
child (0 and 1), both spawned, without firing and without read error, give
the same result of `process`, namely nil. -/
theorem exit_status_not_in_outcome :
    (exitsWith 0).exitStatus ≠ (exitsWith 1).exitStatus ∧
    (process (exitsWith 0) "PANIC" 3 (5 * second)).spawned = true ∧
    (process (exitsWith 1) "PANIC" 3 (5 * second)).spawned = true ∧
    fired (process (exitsWith 0) "PANIC" 3 (5 * second)).final = false ∧
    fired (process (exitsWith 1) "PANIC" 3 (5 * second)).final = false ∧
    (process (exitsWith 0) "PANIC" 3 (5 * second)).ret = none ∧
    (process (exitsWith 1) "PANIC" 3 (5 * second)).ret = none ∧
    process (exitsWith 0) "PANIC" 3 (5 * second) =
      process (exitsWith 1) "PANIC" 3 (5 * second) := by
  decide

/-- C9 as amended: for every run in which the child was spawned, the detector
did not fire and no read error occurred, `process` returns nil; the result
of `process` does not depend on the exit status of the child. -/
theorem process_ret_nil_whatever_exit_status (run : Run) (errSubstring : String)
    (countLimit timeWindow : Int) (hrun : run.started = true)
    (hnf : fired (process run errSubstring countLimit timeWindow).final = false)
    (hscan : run.scanErr = none) :
    (process run errSubstring countLimit timeWindow).ret = none ∧
    ∀ code : Int, process { run with exitStatus := code } errSubstring countLimit timeWindow =
      process run errSubstring countLimit timeWindow := by
  refine ⟨?_, fun code => rfl⟩
  rw [process_final run errSubstring countLimit timeWindow hrun] at hnf
  rw [process_ret run errSubstring countLimit timeWindow hrun]
  simp only [hscan]
  cases hd : detect countLimit timeWindow [] (matchTimes errSubstring run.lines) with
  | none => exact (scanLoop_detect_none errSubstring countLimit timeWindow run.lines
      ScanState.init rfl hd).1
  | some occ =>
    have := (scanLoop_detect_some errSubstring countLimit timeWindow run.lines
      ScanState.init occ rfl hd).1
    simp [fired, this] at hnf

/-- Witness for the amended C9: a child ending with status 1. -/
theorem process_ret_nil_whatever_exit_status_witness :
    (exitsWith 1).started = true ∧
    fired (process (exitsWith 1) "PANIC" 3 (5 * second)).final = false ∧
    (exitsWith 1).scanErr = none ∧
    (process (exitsWith 1) "PANIC" 3 (5 * second)).ret = none :=
  ⟨by decide, by decide, by decide,
   (process_ret_nil_whatever_exit_status (exitsWith 1) "PANIC" 3 (5 * second)
      (by decide) (by decide) (by decide)).1⟩

/-! ## Signal forwarding -/

theorem sigRun_append (st : SigState) (a b : List Event) :
    sigRun st (a ++ b) = sigRun (sigRun st a) b := by
  simp [sigRun]

/-- Events other than signals leave the goroutine waiting and send nothing. -/
theorem sigRun_without_signal (events : List Event) :
    ∀ st : SigState, (∀ e ∈ events, e.isSignal = false) → st.crashed = false →
      (sigRun st events).listening = st.listening ∧
      (sigRun st events).forwarded = st.forwarded ∧
      (sigRun st events).crashed = false := by
  induction events with
  | nil => intro st _ hc; exact ⟨rfl, rfl, hc⟩
  | cons ev rest ih =>
    intro st hev hc
    have hrest : ∀ e ∈ rest, e.isSignal = false := fun e he => hev e (List.mem_cons_of_mem _ he)
    have hhead := hev ev (List.mem_cons_self _ _)
    cases ev with
    | signal sig => simp [Event.isSignal] at hhead
    | command =>
      have := ih (sigStep st Event.command) hrest (by simp [sigStep, hc])
      simp only [sigRun, List.foldl_cons] at this ⊢
      simpa [sigStep, hc] using this
    | start pid =>
      have := ih (sigStep st (Event.start pid)) hrest (by simp [sigStep, hc])
      simp only [sigRun, List.foldl_cons] at this ⊢
      simpa [sigStep, hc] using this

theorem sigStep_listening (st : SigState) (sig : Signal) (hl : st.listening = true)
    (hc : st.crashed = false) : sigStep st (Event.signal sig) = receive st sig := by
  simp [sigStep, hl, hc]

theorem sigStep_deaf (st : SigState) (ev : Event) (h : st.listening = false) :
    (sigStep st ev).listening = false ∧ (sigStep st ev).forwarded = st.forwarded ∧
      (sigStep st ev).crashed = st.crashed := by
  unfold sigStep
  by_cases hc : st.crashed = true
  · simp [hc, h]
  · cases ev with
    | command => simp [hc, h]
    | start pid => simp [hc, h]
    | signal sig =>
      by_cases hb : st.buffered.length < 1
      · simp [hc, h, hb]
      · simp [hc, h, hb]

/-- Once the goroutine has ended, nothing is forwarded any more. -/
theorem sigRun_deaf (events : List Event) :
    ∀ st : SigState, st.listening = false →
      (sigRun st events).forwarded = st.forwarded ∧ (sigRun st events).crashed = st.crashed := by
  induction events with
  | nil => intro st _; exact ⟨rfl, rfl⟩
  | cons ev rest ih =>
    intro st h
    obtain ⟨h1, h2, h3⟩ := sigStep_deaf st ev h
    have := ih (sigStep st ev) h1
    simp only [sigRun, List.foldl_cons] at this ⊢
    rw [this.1, this.2, h2, h3]
    exact ⟨rfl, rfl⟩

/-- C8 fails as stated: a child is running (`cmd.Process` is child 1) when
SIGINT and then SIGTERM are delivered to the supervisor; only SIGINT is
forwarded, SIGTERM stays in the channel. -/
theorem second_signal_not_forwarded :
    (sigRun SigState.init
      [Event.command, Event.start 1, Event.signal Signal.sigint]).cmd = CmdVar.started 1 ∧
    (sigRun SigState.init
      [Event.command, Event.start 1, Event.signal Signal.sigint]).crashed = false ∧
    (sigRun SigState.init
      [Event.command, Event.start 1, Event.signal Signal.sigint,
        Event.signal Signal.sigterm]).forwarded = [(1, Signal.sigint)] ∧
    (sigRun SigState.init
      [Event.command, Event.start 1, Event.signal Signal.sigint,
        Event.signal Signal.sigterm]).buffered = [Signal.sigterm] := by
  decide

/-- C8 as amended: of the signals delivered to the supervisor during its
lifetime only the first is handled. If at that moment the current command
has a process (the child started last, also after restarts), that signal is
forwarded unchanged to that child; if the current command has been built but
not started, nothing is sent and the supervisor does not crash. No later
signal is forwarded. -/
theorem first_signal_forwarded_to_current_child (before after : List Event) (sig : Signal)
    (hbefore : ∀ e ∈ before, e.isSignal = false)
    (hcmd : (sigRun SigState.init before).cmd ≠ CmdVar.unset) :
    (sigRun SigState.init (before ++ Event.signal sig :: after)).forwarded =
      (match (sigRun SigState.init before).cmd with
        | CmdVar.started pid => [(pid, sig)]
        | _ => []) ∧
    (sigRun SigState.init (before ++ Event.signal sig :: after)).crashed = false := by
  obtain ⟨hl, hf, hc⟩ := sigRun_without_signal before SigState.init hbefore rfl
  have hl' : (sigRun SigState.init before).listening = true := hl
  have hf' : (sigRun SigState.init before).forwarded = [] := hf
  rw [sigRun_append]
  have hstep : sigRun (sigRun SigState.init before) (Event.signal sig :: after) =
      sigRun (receive (sigRun SigState.init before) sig) after := by
    have hcons : sigRun (sigRun SigState.init before) (Event.signal sig :: after) =
        sigRun (sigStep (sigRun SigState.init before) (Event.signal sig)) after := rfl
    rw [hcons, sigStep_listening _ sig hl' hc]
  rw [hstep]
  have hdeaf := sigRun_deaf after (receive (sigRun SigState.init before) sig)
    (by unfold receive; cases (sigRun SigState.init before).cmd <;> rfl)
  rw [hdeaf.1, hdeaf.2]
  cases hcase : (sigRun SigState.init before).cmd with
  | unset => exact absurd hcase hcmd
  | built => simp [receive, hcase, hf', hc]
  | started pid => simp [receive, hcase, hf', hc]

/-- Witness for the amended C8: the child has been restarted (child 2 is
current) when SIGTERM arrives, then SIGINT arrives: child 2 gets SIGTERM and
nothing else is sent. -/
theorem first_signal_forwarded_to_current_child_witness :
    (∀ e ∈ [Event.command, Event.start 1, Event.command, Event.start 2],
      e.isSignal = false) ∧
    (sigRun SigState.init
      [Event.command, Event.start 1, Event.command, Event.start 2]).cmd ≠ CmdVar.unset ∧
    (sigRun SigState.init
      ([Event.command, Event.start 1, Event.command, Event.start 2] ++
        Event.signal Signal.sigterm :: [Event.signal Signal.sigint])).forwarded =
      [(2, Signal.sigterm)] ∧
    (sigRun SigState.init
      ([Event.command, Event.start 1, Event.command, Event.start 2] ++
        Event.signal Signal.sigterm :: [Event.signal Signal.sigint])).crashed = false :=
  ⟨by decide, by decide,
   first_signal_forwarded_to_current_child
     [Event.command, Event.start 1, Event.command, Event.start 2]
     [Event.signal Signal.sigint] Signal.sigterm (by decide) (by decide)⟩

end Starter
